import Mathlib

/-!
Shallow embedding of src/src/main.c (navy network / Borůvka-style MST over
cities, ports and candidate highways).

The cities array is modelled as a total function from indices to city cells
(the source callocs n_cities + 1 zeroed cells; indices beyond those the
algorithm touches simply hold the zero cell).  Pointers become indices:
a City* is the index of the cell, a Highway* stored in the cheapest slot is
the index into the highways list, and the NULL parent pointer of a DSU root
is Option.none.  The source's while-loops become fuel-indexed recursions
returning Option (none = the loop ran out of fuel, i.e. diverged, or a null
pointer was dereferenced); the for-loops over array indices become structural
recursion over List.range.  The intrusive doubly-linked adjacency lists and
the BuildStatus field of struct highway are never read by the algorithm and
are omitted.  stdin parsing is replaced by passing the parsed instance.
-/

namespace NavyNetwork

/-- A candidate highway (struct highway): the two endpoint city ids and the
cost.  The linked-list node fields and the status flag are dead for the
algorithm and omitted. -/
structure HighwayS where
  city_1 : Nat
  city_2 : Nat
  cost : Int
  deriving DecidableEq

instance : Inhabited HighwayS := ⟨⟨0, 0, 0⟩⟩

/-- One cell of the cities array (struct city): the port cost, the DSU parent
pointer `capital` (none = root), the DSU size/rank field
`n_connected_cities`, and the per-round `cheapest` slot holding the index of
a highway. -/
structure CityS where
  port_cost : Int
  capital : Option Nat
  n_connected_cities : Int
  cheapest : Option Nat
  deriving DecidableEq

/-- The all-zero city cell produced by calloc. -/
def callocCity : CityS :=
  { port_cost := 0, capital := none, n_connected_cities := 0, cheapest := none }

/-- Pointwise update of the cities array at index i. -/
def updateCity (cs : Nat → CityS) (i : Nat) (f : CityS → CityS) : Nat → CityS :=
  fun j => if j = i then f (cs j) else cs j

/-- Loop of the source `find`: parent starts at child; while parent->capital
is not NULL, parent is reassigned to child->capital (sic: the source reads
`child->capital`, not `parent->capital`).  Fuel bounds the iterations; none
models divergence or a null dereference. -/
def findGo (cs : Nat → CityS) (child : Nat) : Nat → Nat → Option Nat
  | 0, _ => none
  | fuel + 1, parent =>
    match (cs parent).capital with
    | none => some parent
    | some _ =>
      match (cs child).capital with
      | some c => findGo cs child fuel c
      | none => none

/-- The source `find` (there is no path compression in the code). -/
def find (cs : Nat → CityS) (fuel : Nat) (child : Nat) : Option Nat :=
  findGo cs child fuel child

/-- cities_are_connected: two (root) cities count as connected when they are
the same cell, or both have a nonzero port cost. -/
def cities_are_connected (cs : Nat → CityS) (c1 c2 : Nat) : Bool :=
  c1 == c2 || ((cs c1).port_cost != 0 && (cs c2).port_cost != 0)

/-- union_set: compares the n_connected_cities fields of the two roots,
attaches the smaller-field root under the other, and on a tie attaches
y's root under x's root and increments x's root's field.  There is no
same-root guard in the source. -/
def union_set (cs : Nat → CityS) (fuel x y : Nat) : Option (Nat → CityS) :=
  match find cs fuel x, find cs fuel y with
  | some x_root, some y_root =>
    if (cs x_root).n_connected_cities < (cs y_root).n_connected_cities then
      some (updateCity cs x_root (fun c => { c with capital := some y_root }))
    else if (cs y_root).n_connected_cities < (cs x_root).n_connected_cities then
      some (updateCity cs y_root (fun c => { c with capital := some x_root }))
    else
      some (updateCity (updateCity cs y_root (fun c => { c with capital := some x_root }))
        x_root (fun c => { c with n_connected_cities := c.n_connected_cities + 1 }))
  | _, _ => none

/-- The first loop of a round, elementwise: cities[i].cheapest = NULL. -/
def resetAux : List Nat → (Nat → CityS) → (Nat → CityS)
  | [], cs => cs
  | i :: is, cs => resetAux is (updateCity cs i (fun c => { c with cheapest := none }))

/-- First loop of a round of boruvka_mst: for i in 0..n_cities-1,
cities[i].cheapest = NULL. -/
def resetCheapest (n : Nat) (cs : Nat → CityS) : Nat → CityS :=
  resetAux (List.range n) cs

/-- Body of the highway-scanning loop of boruvka_mst for highway index i:
find the roots of the two endpoints and, when the roots are not connected,
update each root's cheapest slot whenever it is empty or its recorded cost
is below the scanned highway's cost (the source comparison is `<`). -/
def scanHighway (hws : List HighwayS) (fuel : Nat) (cs : Nat → CityS) (i : Nat) :
    Option (Nat → CityS) :=
  let h := hws.getD i default
  match find cs fuel h.city_1, find cs fuel h.city_2 with
  | some c1, some c2 =>
    if cities_are_connected cs c1 c2 then some cs
    else
      let cs1 :=
        match (cs c1).cheapest with
        | none => updateCity cs c1 (fun c => { c with cheapest := some i })
        | some j =>
          if (hws.getD j default).cost < h.cost then
            updateCity cs c1 (fun c => { c with cheapest := some i })
          else cs
      let cs2 :=
        match (cs1 c2).cheapest with
        | none => updateCity cs1 c2 (fun c => { c with cheapest := some i })
        | some j =>
          if (hws.getD j default).cost < h.cost then
            updateCity cs1 c2 (fun c => { c with cheapest := some i })
          else cs1
      some cs2
  | _, _ => none

/-- The highway-scanning loop over the given highway indices. -/
def scanAux (hws : List HighwayS) (fuel : Nat) : List Nat → (Nat → CityS) → Option (Nat → CityS)
  | [], cs => some cs
  | i :: is, cs =>
    match scanHighway hws fuel cs i with
    | some cs1 => scanAux hws fuel is cs1
    | none => none

/-- Second loop of a round of boruvka_mst: for i in 0..n_highways-1, scan
highway i. -/
def scanPhase (hws : List HighwayS) (fuel : Nat) (cs : Nat → CityS) : Option (Nat → CityS) :=
  scanAux hws fuel (List.range hws.length) cs

/-- The mutable state of boruvka_mst: the cities array, total_plan_cost,
n_highways_used and n_city_components. -/
structure BState where
  cities : Nat → CityS
  total : Int
  used : Int
  count : Int

/-- Body of the merging loop of boruvka_mst for city index i: when
cities[i].cheapest is set, find the roots of that highway's endpoints and,
when they are not connected, pay the highway, union the roots, decrement the
component count and increment the used counter. -/
def mergeStep (hws : List HighwayS) (fuel : Nat) (st : BState) (i : Nat) : Option BState :=
  match (st.cities i).cheapest with
  | none => some st
  | some j =>
    let h := hws.getD j default
    match find st.cities fuel h.city_1, find st.cities fuel h.city_2 with
    | some c1, some c2 =>
      if cities_are_connected st.cities c1 c2 then some st
      else
        match union_set st.cities fuel c1 c2 with
        | some cs1 =>
          some { cities := cs1, total := st.total + h.cost, used := st.used + 1,
                 count := st.count - 1 }
        | none => none
    | _, _ => none

/-- The merging loop over the given city indices. -/
def mergeAux (hws : List HighwayS) (fuel : Nat) : List Nat → BState → Option BState
  | [], st => some st
  | i :: is, st =>
    match mergeStep hws fuel st i with
    | some st1 => mergeAux hws fuel is st1
    | none => none

/-- Third loop of a round of boruvka_mst: for i in 0..n_cities-1, apply the
recorded cheapest slot of city i. -/
def mergePhase (n : Nat) (hws : List HighwayS) (fuel : Nat) (st : BState) : Option BState :=
  mergeAux hws fuel (List.range n) st

/-- One full round of the while-loop of boruvka_mst: reset the cheapest
slots, scan all highways, then merge. -/
def boruvkaRound (n : Nat) (hws : List HighwayS) (fuel : Nat) (st : BState) : Option BState :=
  match scanPhase hws fuel (resetCheapest n st.cities) with
  | some cs1 => mergePhase n hws fuel { st with cities := cs1 }
  | none => none

/-- The observable result of the program: the two printed lines on success
(total_plan_cost, then n_ports and n_highways_used), or the single
Impossible line, which carries no figures. -/
inductive Outcome where
  | feasible (total_cost n_ports n_highways_used : Int)
  | impossible
  deriving DecidableEq

/-- The initialisation of n_city_components in boruvka_mst:
n_cities - n_ports + 1, with no special case for n_ports = 0. -/
def n_city_components_init (n np : Int) : Int := n - np + 1

/-- Modelled from the spec (section 4.3), for comparison with
n_city_components_init: initial component count = n_cities minus
(ports_count - 1) when ports_count is positive, else n_cities. -/
def specInitialComponentCount (n np : Int) : Int :=
  if 0 < np then n - (np - 1) else n

/-- The while-loop of boruvka_mst.  prev is previous_city_components (the
source initialises it to n_cities).  After each round, when the new
component count equals prev the program prints Impossible and returns;
when the count is not above 1 the loop exits and the program prints the
plan. -/
def boruvkaLoop (n : Nat) (np : Int) (hws : List HighwayS) (findFuel : Nat) :
    Nat → Int → BState → Option Outcome
  | 0, _, _ => none
  | loopFuel + 1, prev, st =>
    if 1 < st.count then
      match boruvkaRound n hws findFuel st with
      | some st1 =>
        if st1.count = prev then some Outcome.impossible
        else boruvkaLoop n np hws findFuel loopFuel st1.count st1
      | none => none
    else some (Outcome.feasible st.total np st.used)

/-- boruvka_mst on an already-built state.  The two fuels are embedding
artifacts bounding the while-loop of find and the outer round loop; the
source's loops carry no fuel. -/
def boruvka_mst (n : Nat) (np : Int) (hws : List HighwayS) (initTotal : Int)
    (cs : Nat → CityS) (loopFuel findFuel : Nat) : Option Outcome :=
  boruvkaLoop n np hws findFuel loopFuel (n : Int)
    { cities := cs, total := initTotal, used := 0,
      count := n_city_components_init (n : Int) np }

/-- The initialisation loop of build_cities, elementwise: for each listed
index, capital = NULL, cheapest = NULL, n_connected_cities = 1. -/
def initAux : List Nat → (Nat → CityS) → (Nat → CityS)
  | [], cs => cs
  | i :: is, cs =>
    initAux is (updateCity cs i
      (fun c => { c with capital := none, cheapest := none, n_connected_cities := 1 }))

/-- The port-reading loop of build_cities: each declared port sets the
city's port_cost and adds its cost to total_plan_cost. -/
def portAux : List (Nat × Int) → ((Nat → CityS) × Int) → ((Nat → CityS) × Int)
  | [], p => p
  | pc :: ps, p =>
    portAux ps (updateCity p.1 pc.1 (fun c => { c with port_cost := pc.2 }), p.2 + pc.2)

/-- build_cities on an already-parsed instance: calloc(n_cities + 1) zeroed
cells, the init loop over indices 0..n_cities-1, then the port loop.
Returns the cities array together with total_plan_cost.  No union is
performed here: ports only set port_cost. -/
def build_cities (n : Nat) (ports : List (Nat × Int)) : (Nat → CityS) × Int :=
  portAux ports (initAux (List.range n) (fun _ => callocCity), 0)

/-- The whole program on a parsed instance: build_cities, then boruvka_mst
(main calls build_cities, compute_city_plan and boruvka_mst in sequence). -/
def runPlan (n : Nat) (ports : List (Nat × Int)) (hws : List HighwayS)
    (loopFuel findFuel : Nat) : Option Outcome :=
  boruvka_mst n (ports.length : Int) hws (build_cities n ports).2
    (build_cities n ports).1 loopFuel findFuel

/-- Overwrite only the cheapest slot of city i. -/
def setCheapest (cs : Nat → CityS) (i : Nat) (v : Option Nat) : Nat → CityS :=
  updateCity cs i (fun c => { c with cheapest := v })

/-- Overwrite only the cheapest slot of city i inside a boruvka state. -/
def setCheapestState (st : BState) (i : Nat) (v : Option Nat) : BState :=
  { st with cities := setCheapest st.cities i v }

/-- A consistent three-link parent chain 1 → 2 → 3 with root 3 (the shape the
source's union produces after unioning two two-city components). -/
def chainCities : Nat → CityS := fun i =>
  if i = 1 then { callocCity with capital := some 2, n_connected_cities := 1 }
  else if i = 2 then { callocCity with capital := some 3, n_connected_cities := 1 }
  else if i = 3 then { callocCity with n_connected_cities := 3 }
  else callocCity

/-- A two-city component: city 2 is a child of root 1. -/
def pairCities : Nat → CityS := fun i =>
  if i = 1 then { callocCity with n_connected_cities := 2 }
  else if i = 2 then { callocCity with capital := some 1, n_connected_cities := 1 }
  else callocCity

/-- A tiny boruvka state with one remaining component, used to instantiate
general theorems at concrete inputs. -/
def witnessStateOne : BState :=
  { cities := fun _ => callocCity, total := 0, used := 0, count := 1 }

/-- A tiny boruvka state with two remaining components, used to instantiate
general theorems at concrete inputs. -/
def witnessStateTwo : BState :=
  { cities := fun _ => callocCity, total := 0, used := 0, count := 2 }

/- ######################## Helper lemmas ######################## -/

theorem updateCity_self (cs : Nat → CityS) (i : Nat) (f : CityS → CityS) :
    updateCity cs i f i = f (cs i) := if_pos rfl

theorem updateCity_ne (cs : Nat → CityS) (i : Nat) (f : CityS → CityS) (j : Nat)
    (h : j ≠ i) : updateCity cs i f j = cs j := if_neg h

theorem portAux_capital : ∀ (ps : List (Nat × Int)) (p : (Nat → CityS) × Int) (i : Nat),
    ((portAux ps p).1 i).capital = (p.1 i).capital := by
  intro ps
  induction ps with
  | nil => intro p i; rfl
  | cons pc ps ih =>
    intro p i
    simp only [portAux]
    rw [ih]
    simp only [updateCity]
    split <;> rfl

theorem initAux_capital : ∀ (l : List Nat) (cs : Nat → CityS),
    (∀ j, (cs j).capital = none) → ∀ i, ((initAux l cs) i).capital = none := by
  intro l
  induction l with
  | nil => intro cs h i; exact h i
  | cons a l ih =>
    intro cs h i
    simp only [initAux]
    refine ih _ ?_ i
    intro j
    simp only [updateCity]
    split
    · rfl
    · exact h j

theorem build_cities_capital (n : Nat) (ports : List (Nat × Int)) (i : Nat) :
    ((build_cities n ports).1 i).capital = none := by
  rw [build_cities, portAux_capital]
  exact initAux_capital _ _ (fun j => rfl) i

theorem find_root_self (cs : Nat → CityS) (fuel i : Nat) (h : (cs i).capital = none) :
    find cs (fuel + 1) i = some i := by
  simp [find, findGo, h]

theorem findGo_chain_stuck : ∀ f, findGo chainCities 1 f 2 = none := by
  intro f
  induction f with
  | zero => rfl
  | succ f ih =>
    show findGo chainCities 1 f 2 = none
    exact ih

/- ######################## Claim theorems ######################## -/

/-- C1: refuted as stated.  In a round of boruvka_mst with two distinct,
unconnected components rooted at cities 1 and 2 and two crossing highways of
costs 5 and 10, the scanning loop leaves the index of the cost-10 highway in
both roots' cheapest slots: the comparison in the source keeps the costliest
crossing highway, not the minimum-cost one required by the claim. -/
theorem C1_scan_keeps_costliest :
    (scanPhase [⟨1, 2, 5⟩, ⟨1, 2, 10⟩] 4 (resetCheapest 2 (build_cities 2 []).1)).map
      (fun f => ((f 1).cheapest, (f 2).cheapest)) = some (some 1, some 1) ∧
    ([⟨1, 2, 5⟩, ⟨1, 2, 10⟩] : List HighwayS).getD 0 default = ⟨1, 2, 5⟩ ∧
    ([⟨1, 2, 5⟩, ⟨1, 2, 10⟩] : List HighwayS).getD 1 default = ⟨1, 2, 10⟩ ∧
    ((5 : Int) < 10) ∧
    find (resetCheapest 2 (build_cities 2 []).1) 4 1 = some 1 ∧
    find (resetCheapest 2 (build_cities 2 []).1) 4 2 = some 2 ∧
    cities_are_connected (resetCheapest 2 (build_cities 2 []).1) 1 2 = false := by
  decide

/-- C2: counterexample.  After build_cities on two ported cities, the two
cities keep distinct DSU roots (no pre-merge is ever performed), while the
cities_are_connected predicate already counts them as connected: the
predicate and DSU root equality disagree right after initialization. -/
theorem C2_ports_not_premerged :
    find (build_cities 2 [(1, 7), (2, 9)]).1 3 1 = some 1 ∧
    find (build_cities 2 [(1, 7), (2, 9)]).1 3 2 = some 2 ∧
    ((build_cities 2 [(1, 7), (2, 9)]).1 1).port_cost = 7 ∧
    ((build_cities 2 [(1, 7), (2, 9)]).1 2).port_cost = 9 ∧
    cities_are_connected (build_cities 2 [(1, 7), (2, 9)]).1 1 2 = true := by
  decide

/-- C2 (amended): build_cities performs no union at all — after it every
city is a DSU root of its own singleton component — and two (root) cities
are treated as already connected iff they are the same city or both have a
nonzero port_cost; the predicate is therefore strictly coarser than DSU root
equality as soon as two distinct ported cities exist. -/
theorem C2_predicate_vs_dsu (n : Nat) (ports : List (Nat × Int)) (i fuel : Nat) :
    ((build_cities n ports).1 i).capital = none ∧
    find (build_cities n ports).1 (fuel + 1) i = some i ∧
    ∀ (cs : Nat → CityS) (a b : Nat),
      (cities_are_connected cs a b = true ↔
        (a = b ∨ ((cs a).port_cost ≠ 0 ∧ (cs b).port_cost ≠ 0))) := by
  refine ⟨build_cities_capital n ports i,
    find_root_self _ _ _ (build_cities_capital n ports i), ?_⟩
  intro cs a b
  simp [cities_are_connected]

/-- C3: refuted as stated; the code is at fault.  chainCities is a
consistent parent chain 1 → 2 → 3 whose root 3 is reachable in two steps,
yet the source find, whose loop re-reads child->capital instead of
parent->capital, never returns on city 1, for any amount of fuel (the C
original loops forever); on the direct child 2 and on the root 3 it does
return the root. -/
theorem C3_find_diverges :
    (chainCities 1).capital = some 2 ∧
    (chainCities 2).capital = some 3 ∧
    (chainCities 3).capital = none ∧
    (∀ fuel, find chainCities (fuel + 1) 3 = some 3) ∧
    (∀ fuel, find chainCities (fuel + 2) 2 = some 3) ∧
    (∀ fuel, find chainCities fuel 1 = none) := by
  refine ⟨rfl, rfl, rfl, fun fuel => rfl, fun fuel => rfl, ?_⟩
  intro fuel
  cases fuel with
  | zero => rfl
  | succ f =>
    show findGo chainCities 1 f 2 = none
    exact findGo_chain_stuck f

/-- C4: counterexample.  With 2 cities and 0 ports the source initialises
n_city_components to 2 - 0 + 1 = 3, while the claim (and the spec formula)
demands 2. -/
theorem C4_zero_ports_off_by_one :
    n_city_components_init 2 0 = 3 ∧
    specInitialComponentCount 2 0 = 2 ∧
    ¬ n_city_components_init 2 0 = specInitialComponentCount 2 0 := by
  decide

/-- C4 (amended): the source initialises the component count to
n_cities - n_ports + 1 unconditionally; this equals the spec's
n_cities - (ports_count - 1) whenever ports_count > 0, but equals
n_cities + 1, not n_cities, when ports_count = 0. -/
theorem C4_component_count_formula (n np : Int) :
    (0 < np → n_city_components_init n np = specInitialComponentCount n np) ∧
    (np = 0 → n_city_components_init n np = n + 1) := by
  constructor
  · intro h
    simp only [n_city_components_init, specInitialComponentCount, if_pos h]
    ring
  · intro h
    simp only [n_city_components_init, h]
    ring

/-- C4 witness: the amended formula evaluated at concrete counts. -/
theorem C4_component_count_formula_witness :
    n_city_components_init 5 2 = specInitialComponentCount 5 2 ∧
    n_city_components_init 4 0 = 4 + 1 :=
  ⟨(C4_component_count_formula 5 2).1 (by decide),
   (C4_component_count_formula 4 0).2 rfl⟩

/-- C5: counterexample.  The instance with a single city, no ports and no
highways is reported Impossible by the program (the component count starts
at 1 - 0 + 1 = 2 and can never reach 1), not feasible with total cost 0 as
the claim requires. -/
theorem C5_single_city_impossible :
    runPlan 1 [] [] 4 3 = some Outcome.impossible ∧
    runPlan 1 [] [] 4 3 ≠ some (Outcome.feasible 0 0 0) := by
  decide

/-- C5 (amended): with n_cities ≤ 1 the program is feasible with total cost
the sum of the declared port costs and zero highways used when the port
count is at least n_cities (one city with a port, or the empty instance);
but a single city with no port is reported Impossible. -/
theorem C5_small_instances (c : Int) :
    runPlan 1 [(1, c)] [] 4 3 = some (Outcome.feasible c 1 0) ∧
    runPlan 0 [] [] 4 3 = some (Outcome.feasible 0 0 0) ∧
    runPlan 1 [] [] 4 3 = some Outcome.impossible := by
  refine ⟨?_, by decide, by decide⟩
  have h : runPlan 1 [(1, c)] [] 4 3 = some (Outcome.feasible (0 + c) 1 0) := rfl
  rw [zero_add] at h
  exact h

/-- C6: counterexample.  In the two-city component pairCities (city 2 a
child of root 1), cities 1 and 2 share the DSU root 1, yet union on them is
not a no-op: it rewrites the root's parent pointer from none to itself and
bumps its size from 2 to 3, and afterwards find on city 1 no longer
terminates (the forest is inconsistent). -/
theorem C6_union_same_root_not_noop :
    find pairCities 3 1 = some 1 ∧
    find pairCities 3 2 = some 1 ∧
    (pairCities 1).capital = none ∧
    (pairCities 1).n_connected_cities = 2 ∧
    (union_set pairCities 3 1 2).map (fun f => ((f 1).capital, (f 1).n_connected_cities))
      = some (some 1, 3) ∧
    (union_set pairCities 3 1 2).bind (fun f => find f 5 1) = none := by
  decide

/-- C6 (amended): calling union on two cities whose finds return the same
root r is not a no-op: it sets r's parent pointer to r itself and increments
r's recorded size by one (its other fields and every other city are
unchanged), so r ceases to be a root and the forest is no longer
consistent. -/
theorem C6_union_same_root_behavior (cs : Nat → CityS) (fuel x y r : Nat)
    (hx : find cs fuel x = some r) (hy : find cs fuel y = some r) :
    ∃ cs2, union_set cs fuel x y = some cs2 ∧
      (cs2 r).capital = some r ∧
      (cs2 r).n_connected_cities = (cs r).n_connected_cities + 1 ∧
      (cs2 r).port_cost = (cs r).port_cost ∧
      (cs2 r).cheapest = (cs r).cheapest ∧
      ∀ j, j ≠ r → cs2 j = cs j := by
  have hu : union_set cs fuel x y =
      some (updateCity (updateCity cs r (fun c => { c with capital := some r }))
        r (fun c => { c with n_connected_cities := c.n_connected_cities + 1 })) := by
    simp only [union_set, hx, hy, lt_irrefl, if_false]
  refine ⟨_, hu, ?_, ?_, ?_, ?_, ?_⟩
  · simp [updateCity]
  · simp [updateCity]
  · simp [updateCity]
  · simp [updateCity]
  · intro j hj
    rw [updateCity_ne _ _ _ _ hj, updateCity_ne _ _ _ _ hj]

/-- C6 witness: the amended behavior at a concrete singleton root. -/
theorem C6_union_same_root_behavior_witness :
    ∃ cs2, union_set (fun _ => callocCity) 1 5 5 = some cs2 ∧
      (cs2 5).capital = some 5 ∧
      (cs2 5).n_connected_cities = callocCity.n_connected_cities + 1 ∧
      (cs2 5).port_cost = callocCity.port_cost ∧
      (cs2 5).cheapest = callocCity.cheapest ∧
      ∀ j, j ≠ 5 → cs2 j = callocCity :=
  C6_union_same_root_behavior (fun _ => callocCity) 1 5 5 5 rfl rfl

/-- C7: counterexample.  Starting from four singleton cities, union 1 with 2
and then 3 with 1: root 1's recorded n_connected_cities is 2 while its
component {1, 2, 3} has 3 members — the recorded value is a rank, not the
component size, and the absorbed component's size is not added. -/
theorem C7_rank_not_size :
    ((union_set (build_cities 4 []).1 5 1 2).bind (fun c => union_set c 5 3 1)).map
      (fun c => ((c 1).n_connected_cities,
        (((List.range 5).filter (fun i => find c 5 i == some 1)).length : Int)))
      = some (2, 3) ∧
    ¬ ((2 : Int) = 3) := by
  decide

/-- C7 (amended): union_set is union by rank on the n_connected_cities
field: with distinct roots it attaches the root with the smaller field value
under the root with the larger one, leaving the surviving root's field
unchanged (the absorbed size is not added); on a tie it attaches y's root
under x's root and increments x's root's field by one.  The field is not
the component cardinality. -/
theorem C7_union_by_rank (cs : Nat → CityS) (fuel x y rx ry : Nat)
    (hx : find cs fuel x = some rx) (hy : find cs fuel y = some ry) (hne : rx ≠ ry) :
    ∃ cs2, union_set cs fuel x y = some cs2 ∧
      ((cs rx).n_connected_cities < (cs ry).n_connected_cities →
        (cs2 rx).capital = some ry ∧
        (cs2 ry).n_connected_cities = (cs ry).n_connected_cities ∧
        ∀ j, j ≠ rx → cs2 j = cs j) ∧
      ((cs ry).n_connected_cities < (cs rx).n_connected_cities →
        (cs2 ry).capital = some rx ∧
        (cs2 rx).n_connected_cities = (cs rx).n_connected_cities ∧
        ∀ j, j ≠ ry → cs2 j = cs j) ∧
      ((cs rx).n_connected_cities = (cs ry).n_connected_cities →
        (cs2 ry).capital = some rx ∧
        (cs2 ry).n_connected_cities = (cs ry).n_connected_cities ∧
        (cs2 rx).capital = (cs rx).capital ∧
        (cs2 rx).n_connected_cities = (cs rx).n_connected_cities + 1 ∧
        ∀ j, j ≠ rx → j ≠ ry → cs2 j = cs j) := by
  by_cases h1 : (cs rx).n_connected_cities < (cs ry).n_connected_cities
  · have hu : union_set cs fuel x y =
        some (updateCity cs rx (fun c => { c with capital := some ry })) := by
      simp only [union_set, hx, hy, if_pos h1]
    refine ⟨_, hu, fun _ => ⟨?_, ?_, ?_⟩, fun h2 => absurd h1 (asymm h2), fun h2 => ?_⟩
    · simp [updateCity]
    · rw [updateCity_ne _ _ _ _ (Ne.symm hne)]
    · intro j hj
      exact updateCity_ne _ _ _ _ hj
    · rw [h2] at h1
      exact absurd h1 (lt_irrefl _)
  · by_cases h2 : (cs ry).n_connected_cities < (cs rx).n_connected_cities
    · have hu : union_set cs fuel x y =
          some (updateCity cs ry (fun c => { c with capital := some rx })) := by
        simp only [union_set, hx, hy, if_neg h1, if_pos h2]
      refine ⟨_, hu, fun h3 => absurd h3 h1, fun _ => ⟨?_, ?_, ?_⟩, fun h3 => ?_⟩
      · simp [updateCity]
      · rw [updateCity_ne _ _ _ _ hne]
      · intro j hj
        exact updateCity_ne _ _ _ _ hj
      · rw [h3] at h2
        exact absurd h2 (lt_irrefl _)
    · have heq : (cs rx).n_connected_cities = (cs ry).n_connected_cities :=
        le_antisymm (not_lt.mp h2) (not_lt.mp h1)
      have hu : union_set cs fuel x y =
          some (updateCity (updateCity cs ry (fun c => { c with capital := some rx }))
            rx (fun c => { c with n_connected_cities := c.n_connected_cities + 1 })) := by
        simp only [union_set, hx, hy, if_neg h1, if_neg h2]
      refine ⟨_, hu, fun h3 => absurd h3 h1, fun h3 => absurd h3 h2, fun _ => ⟨?_, ?_, ?_, ?_, ?_⟩⟩
      · rw [updateCity_ne _ _ _ _ (Ne.symm hne), updateCity_self]
      · rw [updateCity_ne _ _ _ _ (Ne.symm hne), updateCity_self]
      · rw [updateCity_self, updateCity_ne _ _ _ _ hne]
      · rw [updateCity_self, updateCity_ne _ _ _ _ hne]
      · intro j hjx hjy
        rw [updateCity_ne _ _ _ _ hjx, updateCity_ne _ _ _ _ hjy]

/-- C7 witness: the amended behavior merging a rank-0 root under a rank-2
root in the concrete forest pairCities. -/
theorem C7_union_by_rank_witness :
    ∃ cs2, union_set pairCities 5 3 1 = some cs2 ∧
      ((pairCities 3).n_connected_cities < (pairCities 1).n_connected_cities →
        (cs2 3).capital = some 1 ∧
        (cs2 1).n_connected_cities = (pairCities 1).n_connected_cities ∧
        ∀ j, j ≠ 3 → cs2 j = pairCities j) ∧
      ((pairCities 1).n_connected_cities < (pairCities 3).n_connected_cities →
        (cs2 1).capital = some 3 ∧
        (cs2 3).n_connected_cities = (pairCities 3).n_connected_cities ∧
        ∀ j, j ≠ 1 → cs2 j = pairCities j) ∧
      ((pairCities 3).n_connected_cities = (pairCities 1).n_connected_cities →
        (cs2 1).capital = some 3 ∧
        (cs2 1).n_connected_cities = (pairCities 1).n_connected_cities ∧
        (cs2 3).capital = (pairCities 3).capital ∧
        (cs2 3).n_connected_cities = (pairCities 3).n_connected_cities + 1 ∧
        ∀ j, j ≠ 3 → j ≠ 1 → cs2 j = pairCities j) :=
  C7_union_by_rank pairCities 5 3 1 3 1 rfl rfl (by decide)

theorem mergeStep_sum (hws : List HighwayS) (ff : Nat) (st st1 : BState) (i : Nat)
    (h : mergeStep hws ff st i = some st1) :
    st1.count + st1.used = st.count + st.used := by
  simp only [mergeStep] at h
  split at h
  · simp only [Option.some.injEq] at h
    subst h
    rfl
  · split at h
    · split at h
      · simp only [Option.some.injEq] at h
        subst h
        rfl
      · split at h
        · simp only [Option.some.injEq] at h
          subst h
          simp only []
          omega
        · cases h
    · cases h

theorem mergeAux_sum : ∀ (l : List Nat) (hws : List HighwayS) (ff : Nat) (st st1 : BState),
    mergeAux hws ff l st = some st1 → st1.count + st1.used = st.count + st.used := by
  intro l
  induction l with
  | nil =>
    intro hws ff st st1 h
    simp only [mergeAux, Option.some.injEq] at h
    subst h
    rfl
  | cons i is ih =>
    intro hws ff st st1 h
    simp only [mergeAux] at h
    split at h
    · rename_i st2 hstep
      have h1 := mergeStep_sum hws ff st st2 i hstep
      have h2 := ih hws ff st2 st1 h
      omega
    · cases h

theorem boruvkaRound_sum (n : Nat) (hws : List HighwayS) (ff : Nat) (st st1 : BState)
    (h : boruvkaRound n hws ff st = some st1) :
    st1.count + st1.used = st.count + st.used := by
  simp only [boruvkaRound, mergePhase] at h
  split at h
  · have h2 := mergeAux_sum (List.range n) hws ff _ _ h
    exact h2
  · cases h

theorem boruvkaLoop_succ_gt (n : Nat) (np : Int) (hws : List HighwayS) (ff lf : Nat)
    (prev : Int) (st : BState) (h : 1 < st.count) :
    boruvkaLoop n np hws ff (lf + 1) prev st =
      match boruvkaRound n hws ff st with
      | some st1 =>
        if st1.count = prev then some Outcome.impossible
        else boruvkaLoop n np hws ff lf st1.count st1
      | none => none := by
  simp only [boruvkaLoop]
  rw [if_pos h]

/-- C8: counterexample.  On three cities, no ports, highways (1,2,1) and
(2,3,1), the program prints Impossible at the end of the very first round,
although that round did perform a merge (n_highways_used became 1 and the
component count dropped from 4 to 3): the Impossible trigger compares the
count with previous_city_components initialised to n_cities = 3, not with
the round's starting count, so infeasibility is not reported "exactly when a
round completes with no merges". -/
theorem C8_impossible_despite_merge :
    runPlan 3 [] [⟨1, 2, 1⟩, ⟨2, 3, 1⟩] 5 4 = some Outcome.impossible ∧
    n_city_components_init 3 0 = 4 ∧
    (boruvkaRound 3 [⟨1, 2, 1⟩, ⟨2, 3, 1⟩] 4
        { cities := (build_cities 3 []).1, total := 0, used := 0,
          count := n_city_components_init 3 0 }).map (fun s => (s.used, s.count))
      = some (1, 3) := by
  decide

/-- C8 (amended): infeasibility is reported exactly when a round ends with a
component count equal to the recorded previous count, where the previous
count starts at n_cities rather than at the initial component count
n_cities - n_ports + 1; every round preserves count + used, so for any round
whose recorded previous count equals its starting count (in particular every
round after the first) the trigger is equivalent to "no merges this round",
but the first round can trigger it despite performing merges.  On success
the program reports (total_cost, ports_count, highways_used); the Impossible
outcome carries no figures. -/
theorem C8_infeasibility_trigger (n : Nat) (np : Int) (hws : List HighwayS)
    (lf ff : Nat) (prev : Int) (st : BState) :
    (st.count ≤ 1 →
      boruvkaLoop n np hws ff (lf + 1) prev st =
        some (Outcome.feasible st.total np st.used)) ∧
    ∀ st2, boruvkaRound n hws ff st = some st2 →
      st2.count + st2.used = st.count + st.used ∧
      (1 < st.count →
        (st2.count = prev →
          boruvkaLoop n np hws ff (lf + 1) prev st = some Outcome.impossible) ∧
        (st2.count ≠ prev →
          boruvkaLoop n np hws ff (lf + 1) prev st =
            boruvkaLoop n np hws ff lf st2.count st2) ∧
        (prev = st.count → (st2.count = prev ↔ st2.used = st.used))) := by
  constructor
  · intro h
    simp only [boruvkaLoop]
    rw [if_neg (not_lt.mpr h)]
  · intro st2 hround
    have hsum := boruvkaRound_sum n hws ff st st2 hround
    refine ⟨hsum, ?_⟩
    intro hgt
    refine ⟨?_, ?_, ?_⟩
    · intro heq
      rw [boruvkaLoop_succ_gt n np hws ff lf prev st hgt, hround]
      show (if st2.count = prev then some Outcome.impossible
        else boruvkaLoop n np hws ff lf st2.count st2) = some Outcome.impossible
      rw [if_pos heq]
    · intro hneq
      rw [boruvkaLoop_succ_gt n np hws ff lf prev st hgt, hround]
      show (if st2.count = prev then some Outcome.impossible
        else boruvkaLoop n np hws ff lf st2.count st2) =
        boruvkaLoop n np hws ff lf st2.count st2
      rw [if_neg hneq]
    · intro hprev
      subst hprev
      omega

/-- C8 witness: the amended trigger at concrete states — a state with one
component exits feasibly, and a state with two components whose (empty)
round changes nothing triggers Impossible when the previous count matches. -/
theorem C8_infeasibility_trigger_witness :
    boruvkaLoop 0 0 [] 1 1 0 witnessStateOne = some (Outcome.feasible 0 0 0) ∧
    boruvkaLoop 0 0 [] 1 1 2 witnessStateTwo = some Outcome.impossible :=
  ⟨(C8_infeasibility_trigger 0 0 [] 0 1 0 witnessStateOne).1 (by decide),
   (((C8_infeasibility_trigger 0 0 [] 0 1 2 witnessStateTwo).2 witnessStateTwo rfl).2
     (by decide)).1 rfl⟩

/-- C9: refuted; the code is at fault.  Adding the candidate highway
(1, 2, 10) to a feasible instance whose plan costs 6 yields a plan costing
11: because the scanning loop keeps the costliest crossing highway, adding
an option raises the reported optimal cost. -/
theorem C9_adding_highway_raises_cost :
    runPlan 2 [(1, 1)] [⟨1, 2, 5⟩] 5 4 = some (Outcome.feasible 6 1 1) ∧
    runPlan 2 [(1, 1)] [⟨1, 2, 5⟩, ⟨1, 2, 10⟩] 5 4 = some (Outcome.feasible 11 1 1) ∧
    (6 : Int) < 11 := by
  decide

theorem setCheapest_capital (cs : Nat → CityS) (nn : Nat) (v : Option Nat) (j : Nat) :
    ((setCheapest cs nn v) j).capital = (cs j).capital := by
  simp only [setCheapest, updateCity]
  split <;> rfl

theorem setCheapest_port (cs : Nat → CityS) (nn : Nat) (v : Option Nat) (j : Nat) :
    ((setCheapest cs nn v) j).port_cost = (cs j).port_cost := by
  simp only [setCheapest, updateCity]
  split <;> rfl

theorem setCheapest_size (cs : Nat → CityS) (nn : Nat) (v : Option Nat) (j : Nat) :
    ((setCheapest cs nn v) j).n_connected_cities = (cs j).n_connected_cities := by
  simp only [setCheapest, updateCity]
  split <;> rfl

theorem setCheapest_ne (cs : Nat → CityS) (nn : Nat) (v : Option Nat) (j : Nat)
    (h : j ≠ nn) : (setCheapest cs nn v) j = cs j :=
  updateCity_ne cs nn _ j h

theorem findGo_setCheapest (cs : Nat → CityS) (nn : Nat) (v : Option Nat) (child : Nat) :
    ∀ (f p : Nat), findGo (setCheapest cs nn v) child f p = findGo cs child f p := by
  intro f
  induction f with
  | zero => intro p; rfl
  | succ f ih =>
    intro p
    simp only [findGo]
    rw [setCheapest_capital, setCheapest_capital]
    cases hp : (cs p).capital with
    | none => rfl
    | some c =>
      cases hc : (cs child).capital with
      | none => rfl
      | some c2 => exact ih c2

theorem find_setCheapest (cs : Nat → CityS) (nn : Nat) (v : Option Nat) (ff x : Nat) :
    find (setCheapest cs nn v) ff x = find cs ff x :=
  findGo_setCheapest cs nn v x ff x

theorem connected_setCheapest (cs : Nat → CityS) (nn : Nat) (v : Option Nat) (a b : Nat) :
    cities_are_connected (setCheapest cs nn v) a b = cities_are_connected cs a b := by
  simp only [cities_are_connected, setCheapest_port]

theorem updateCity_setCheapest_comm (cs : Nat → CityS) (nn : Nat) (v : Option Nat)
    (r : Nat) (f : CityS → CityS)
    (hf : ∀ c, f { c with cheapest := v } = { f c with cheapest := v }) :
    updateCity (setCheapest cs nn v) r f = setCheapest (updateCity cs r f) nn v := by
  funext j
  simp only [setCheapest, updateCity]
  by_cases hjr : j = r
  · by_cases hjn : j = nn
    · simp only [if_pos hjr, if_pos hjn]
      exact hf (cs j)
    · simp only [if_pos hjr, if_neg hjn]
  · by_cases hjn : j = nn
    · simp only [if_neg hjr, if_pos hjn]
    · simp only [if_neg hjr, if_neg hjn]

theorem union_set_setCheapest (cs : Nat → CityS) (nn : Nat) (v : Option Nat) (ff x y : Nat) :
    union_set (setCheapest cs nn v) ff x y =
      Option.map (fun c => setCheapest c nn v) (union_set cs ff x y) := by
  simp only [union_set, find_setCheapest]
  cases hx : find cs ff x with
  | none => rfl
  | some xr =>
    cases hy : find cs ff y with
    | none => rfl
    | some yr =>
      simp only [setCheapest_size]
      by_cases h1 : (cs xr).n_connected_cities < (cs yr).n_connected_cities
      · rw [if_pos h1, if_pos h1]
        rw [updateCity_setCheapest_comm cs nn v xr _ (fun c => rfl)]
        rfl
      · by_cases h2 : (cs yr).n_connected_cities < (cs xr).n_connected_cities
        · rw [if_neg h1, if_neg h1, if_pos h2, if_pos h2]
          rw [updateCity_setCheapest_comm cs nn v yr _ (fun c => rfl)]
          rfl
        · rw [if_neg h1, if_neg h1, if_neg h2, if_neg h2]
          rw [updateCity_setCheapest_comm cs nn v yr _ (fun c => rfl)]
          rw [updateCity_setCheapest_comm _ nn v xr _ (fun c => rfl)]
          rfl

theorem mergeStep_setCheapest (hws : List HighwayS) (ff : Nat) (st : BState)
    (nn i : Nat) (v : Option Nat) (hne : i ≠ nn) :
    mergeStep hws ff (setCheapestState st nn v) i =
      Option.map (fun s => setCheapestState s nn v) (mergeStep hws ff st i) := by
  simp only [mergeStep, setCheapestState]
  rw [setCheapest_ne st.cities nn v i hne]
  cases hch : (st.cities i).cheapest with
  | none => rfl
  | some j =>
    simp only [find_setCheapest, connected_setCheapest]
    cases h1 : find st.cities ff ((hws.getD j default).city_1) with
    | none => rfl
    | some c1 =>
      cases h2 : find st.cities ff ((hws.getD j default).city_2) with
      | none => rfl
      | some c2 =>
        dsimp only
        by_cases hcon : cities_are_connected st.cities c1 c2
        · rw [if_pos hcon, if_pos hcon]
          rfl
        · rw [if_neg hcon, if_neg hcon]
          rw [union_set_setCheapest st.cities nn v ff c1 c2]
          cases hu : union_set st.cities ff c1 c2 with
          | none => rfl
          | some cs1 => rfl

theorem mergeAux_setCheapest (hws : List HighwayS) (ff nn : Nat) (v : Option Nat) :
    ∀ (l : List Nat), (∀ i ∈ l, i ≠ nn) → ∀ st : BState,
      mergeAux hws ff l (setCheapestState st nn v) =
        Option.map (fun s => setCheapestState s nn v) (mergeAux hws ff l st) := by
  intro l
  induction l with
  | nil => intro _ st; rfl
  | cons i is ih =>
    intro hl st
    simp only [mergeAux]
    rw [mergeStep_setCheapest hws ff st nn i v (hl i (List.mem_cons_self i is))]
    cases hstep : mergeStep hws ff st i with
    | none => rfl
    | some st1 =>
      simp only [Option.map_some]
      exact ih (fun j hj => hl j (List.mem_cons_of_mem i hj)) st1

theorem portAux_size : ∀ (ps : List (Nat × Int)) (p : (Nat → CityS) × Int) (i : Nat),
    ((portAux ps p).1 i).n_connected_cities = (p.1 i).n_connected_cities := by
  intro ps
  induction ps with
  | nil => intro p i; rfl
  | cons pc ps ih =>
    intro p i
    simp only [portAux]
    rw [ih]
    simp only [updateCity]
    split <;> rfl

theorem initAux_not_mem : ∀ (l : List Nat) (cs : Nat → CityS) (i : Nat),
    i ∉ l → initAux l cs i = cs i := by
  intro l
  induction l with
  | nil => intro cs i _; rfl
  | cons a l ih =>
    intro cs i hi
    simp only [initAux]
    rw [ih _ _ (fun h => hi (List.mem_cons_of_mem a h))]
    exact updateCity_ne _ _ _ _ (fun h => hi (h ▸ List.mem_cons_self a l))

theorem initAux_size_mem : ∀ (l : List Nat) (cs : Nat → CityS) (i : Nat),
    i ∈ l → ((initAux l cs) i).n_connected_cities = 1 := by
  intro l
  induction l with
  | nil => intro cs i h; cases h
  | cons a l ih =>
    intro cs i hi
    by_cases h : i ∈ l
    · exact ih _ _ h
    · have hia : i = a := by
        rcases List.mem_cons.mp hi with h1 | h1
        · exact h1
        · exact absurd h1 h
      subst hia
      simp only [initAux]
      rw [initAux_not_mem l _ i h, updateCity_self]

theorem resetAux_not_mem : ∀ (l : List Nat) (cs : Nat → CityS) (i : Nat),
    i ∉ l → resetAux l cs i = cs i := by
  intro l
  induction l with
  | nil => intro cs i _; rfl
  | cons a l ih =>
    intro cs i hi
    simp only [resetAux]
    rw [ih _ _ (fun h => hi (List.mem_cons_of_mem a h))]
    exact updateCity_ne _ _ _ _ (fun h => hi (h ▸ List.mem_cons_self a l))

/-- C10: confirmed.  The loops of build_cities and of each round run over
array indices 0..n_cities-1 although cities are numbered 1..n_cities:
after build_cities the cell of index n_cities keeps the calloc size 0 while
cells 1..n_cities-1 (and the unused cell 0) have size 1; the reset loop of
a round leaves cell n_cities entirely untouched; and the merge loop's result
is completely independent of (and preserves) the cheapest slot of cell
n_cities, since it only processes indices 0..n_cities-1. -/
theorem C10_index_off_by_one (n : Nat) (ports : List (Nat × Int)) (cs : Nat → CityS)
    (hws : List HighwayS) (ff : Nat) (st : BState) (v : Option Nat) :
    ((build_cities n ports).1 n).n_connected_cities = 0 ∧
    (∀ i, 1 ≤ i → i < n → ((build_cities n ports).1 i).n_connected_cities = 1) ∧
    resetCheapest n cs n = cs n ∧
    mergePhase n hws ff (setCheapestState st n v) =
      Option.map (fun st2 => setCheapestState st2 n v) (mergePhase n hws ff st) := by
  refine ⟨?_, ?_, ?_, ?_⟩
  · rw [build_cities, portAux_size]
    exact congrArg (fun c => c.n_connected_cities)
      (initAux_not_mem (List.range n) (fun _ => callocCity) n (by simp [List.mem_range]))
  · intro i _ hilt
    rw [build_cities, portAux_size]
    exact initAux_size_mem (List.range n) _ i (List.mem_range.mpr hilt)
  · exact resetAux_not_mem (List.range n) cs n (by simp [List.mem_range])
  · exact mergeAux_setCheapest hws ff n v (List.range n)
      (fun i hi => Nat.ne_of_lt (List.mem_range.mp hi)) st

/-- C10 witness: the boundary behavior at n_cities = 2. -/
theorem C10_index_off_by_one_witness :
    ((build_cities 2 []).1 2).n_connected_cities = 0 ∧
    ((build_cities 2 []).1 1).n_connected_cities = 1 ∧
    resetCheapest 2 pairCities 2 = pairCities 2 ∧
    mergePhase 2 [] 1 (setCheapestState witnessStateTwo 2 none) =
      Option.map (fun st2 => setCheapestState st2 2 none) (mergePhase 2 [] 1 witnessStateTwo) :=
  ⟨(C10_index_off_by_one 2 [] pairCities [] 1 witnessStateTwo none).1,
   (C10_index_off_by_one 2 [] pairCities [] 1 witnessStateTwo none).2.1 1 (by decide) (by decide),
   (C10_index_off_by_one 2 [] pairCities [] 1 witnessStateTwo none).2.2.1,
   (C10_index_off_by_one 2 [] pairCities [] 1 witnessStateTwo none).2.2.2⟩

end NavyNetwork
